import Mathlib

/-!
Shallow embedding of the two configuration-patching scripts
`setup-auto-approval.py` (standard variant) and `setup-yolo-mode.py`
(permissive "YOLO" variant).

JSON values are modelled by the inductive `JValue`; JSON objects (Python
dicts) are association lists of string keys preserving insertion order,
exactly as CPython dicts do.  Assignment `d[k] = v` replaces the value in
place when `k` is present and appends `(k, v)` otherwise; `k in d` is
key membership; `d[k]` is lookup.  Uncaught Python exceptions (KeyError at
`config["projects"]`, TypeError when a value that must be a dict is not)
are modelled with `Except`.
-/

set_option autoImplicit false

/-- A JSON value.  Objects and arrays keep their order, as Python's
`json` module does. -/
inductive JValue where
  | str (s : String)
  | bool (b : Bool)
  | num (n : Int)
  | null
  | arr (xs : List JValue)
  | obj (kvs : List (String × JValue))
deriving Repr

/-- A JSON object: an insertion-ordered association list, the model of a
Python dict with string keys. -/
abbrev JObj := List (String × JValue)

/-- Python `d[k]` for a dict: the value at the (unique) occurrence of `k`,
if any.  First match, matching dict semantics since keys are unique. -/
def lookup : JObj → String → Option JValue
  | [], _ => none
  | (k', v') :: rest, k => if k' = k then some v' else lookup rest k

/-- Python `d[k] = v`: replace in place when the key exists, append
otherwise (CPython dicts preserve insertion order). -/
def setKey : JObj → String → JValue → JObj
  | [], k, v => [(k, v)]
  | (k', v') :: rest, k, v =>
      if k' = k then (k', v) :: rest else (k', v') :: setKey rest k v

/-- Python `k in d` for a dict. -/
def hasKey (l : JObj) (k : String) : Bool :=
  (lookup l k).isSome

/-- `safe_tools` from `setup-auto-approval.py` (lines 11-14): the 9-item
standard tool list. -/
def safe_tools : List String :=
  ["bash", "str_replace_editor", "read", "write", "list_directory",
   "create_directory", "move_file", "search_files", "get_file_info"]

/-- `yolo_tools` from `setup-yolo-mode.py` (lines 11-16): the 13-item
permissive tool list. -/
def yolo_tools : List String :=
  ["bash", "str_replace_editor", "read", "write", "list_directory",
   "create_directory", "move_file", "search_files", "get_file_info",
   "delete_file", "copy_file", "run_command", "execute_shell"]

/-- First fixed directory path (both scripts, `instance1_path`). -/
def instance1_path : String :=
  "/Users/deankeesey/Workspace/tools/mcp/enhanced-iterm-mcp-instance-1"

/-- Second fixed directory path (both scripts, `instance2_path`). -/
def instance2_path : String :=
  "/Users/deankeesey/Workspace/tools/mcp/enhanced-iterm-mcp-instance-2"

/-- The 9-item standard tool list as a JSON array. -/
def safeArr : JValue := .arr (safe_tools.map .str)

/-- The 13-item permissive tool list as a JSON array. -/
def yoloArr : JValue := .arr (yolo_tools.map .str)

/-- The fields of the fresh Project Record inserted by
`setup-auto-approval.py` (lines 23-37) when a fixed path has no entry
yet. -/
def newRecordFields : JObj :=
  [ ("allowedTools", safeArr),
    ("history", .arr []),
    ("dontCrawlDirectory", .bool false),
    ("mcpContextUris", .arr []),
    ("mcpServers", .obj []),
    ("enabledMcpjsonServers", .arr []),
    ("disabledMcpjsonServers", .arr []),
    ("enableAllProjectMcpServers", .bool false),
    ("hasTrustDialogAccepted", .bool true),
    ("ignorePatterns", .arr []),
    ("projectOnboardingSeenCount", .num 0),
    ("hasClaudeMdExternalIncludesApproved", .bool true),
    ("hasClaudeMdExternalIncludesWarningShown", .bool true) ]

/-- The fresh Project Record as a JSON value. -/
def newRecord : JValue := .obj newRecordFields

/-- An uncaught Python exception raised while patching the in-memory
document: `KeyError` at `config["projects"]`, or `TypeError` when a value
used as a dict is not one. -/
inductive PatchError where
  | keyError
  | typeError
deriving Repr, DecidableEq

/-- The three field assignments of the existing-entry branch of
`setup-auto-approval.py` (lines 39-41). -/
def stdFields (rec : JObj) : JObj :=
  setKey (setKey (setKey rec
    "allowedTools" safeArr)
    "hasTrustDialogAccepted" (.bool true))
    "hasClaudeMdExternalIncludesApproved" (.bool true)

/-- The five field assignments of `setup-yolo-mode.py` (lines 25-30). -/
def yoloFields (rec : JObj) : JObj :=
  setKey (setKey (setKey (setKey (setKey rec
    "allowedTools" yoloArr)
    "hasTrustDialogAccepted" (.bool true))
    "hasClaudeMdExternalIncludesApproved" (.bool true))
    "autoApproveAllTools" (.bool true))
    "yoloMode" (.bool true)

/-- One iteration of the standard script's loop body (lines 21-41) at a
given path: if `path not in config["projects"]`, insert `newRecord`;
otherwise set the three fields on the existing record.  A present entry
that is not a dict makes the field assignment raise `TypeError`. -/
def updateStandardPath (projects : JObj) (path : String) :
    Except PatchError JObj :=
  if hasKey projects path = false then
    .ok (setKey projects path newRecord)
  else match lookup projects path with
    | some (.obj rec) => .ok (setKey projects path (.obj (stdFields rec)))
    | _ => .error .typeError

/-- One iteration of the YOLO script's loop body (lines 23-30) at a given
path: only entries that already exist are updated; a missing path is left
untouched. -/
def updateYoloPath (projects : JObj) (path : String) :
    Except PatchError JObj :=
  if hasKey projects path then
    match lookup projects path with
    | some (.obj rec) => .ok (setKey projects path (.obj (yoloFields rec)))
    | _ => .error .typeError
  else .ok projects

/-- The standard script's in-memory transformation (lines 21-41 of
`setup-auto-approval.py`): the loop over the two fixed paths on
`config["projects"]`.  A missing `projects` key raises `KeyError`; a
`projects` value that is not a dict raises `TypeError` (for a non-dict
value the Python run also terminates with an uncaught `TypeError`, at the
membership test or at the first item assignment). -/
def transform_standard (config : JObj) : Except PatchError JObj :=
  match lookup config "projects" with
  | none => .error .keyError
  | some (.obj projects) =>
      match updateStandardPath projects instance1_path with
      | .error e => .error e
      | .ok ps1 =>
        match updateStandardPath ps1 instance2_path with
        | .error e => .error e
        | .ok ps2 => .ok (setKey config "projects" (.obj ps2))
  | some _ => .error .typeError

/-- The YOLO script's in-memory transformation (lines 23-30 of
`setup-yolo-mode.py`). -/
def transform_yolo (config : JObj) : Except PatchError JObj :=
  match lookup config "projects" with
  | none => .error .keyError
  | some (.obj projects) =>
      match updateYoloPath projects instance1_path with
      | .error e => .error e
      | .ok ps1 =>
        match updateYoloPath ps1 instance2_path with
        | .error e => .error e
        | .ok ps2 => .ok (setKey config "projects" (.obj ps2))
  | some _ => .error .typeError

/-! ## Filesystem model

Both scripts run the same linear sequence over the file at the fixed path
`os.path.expanduser("~/.claude.json")`: open and parse (lines 6-8), patch
in memory, `cp` the still-unmodified file to the suffixed backup path,
then overwrite the original with the indented JSON dump.  Files are byte
strings; a file's bytes are modelled by `Content`: `Content.json d` is
the (indent-2) serialization of the top-level JSON object `d`, and
`Content.raw s` stands for any bytes that are not the serialization of a
JSON object. -/

/-- Bytes of a file: either the serialization of a JSON object, or
anything else (not valid JSON, hence unparseable by `json.load`). -/
inductive Content where
  | json (d : JObj)
  | raw (s : String)
deriving Repr

/-- `json.load` on a file's bytes: succeeds exactly on serialized JSON
objects. -/
def parseContent : Content → Option JObj
  | .json d => some d
  | .raw _ => none

/-- A filesystem: each path either holds bytes or no file exists there. -/
def FS : Type := String → Option Content

/-- `config_path`: the fixed, user-home-relative path
`os.path.expanduser("~/.claude.json")` used by both scripts. -/
def config_path : String := "~/.claude.json"

/-- An uncaught error terminating a script run: the file is missing
(`FileNotFoundError` from `open`), its bytes are not valid JSON
(`json.JSONDecodeError` from `json.load`), or patching raised. -/
inductive RunError where
  | fileNotFound
  | parseError
  | patch (e : PatchError)
deriving Repr, DecidableEq

/-- A whole run of `setup-auto-approval.py` over a filesystem:
read and parse `config_path`, patch in memory, copy the (still pristine)
main file to `config_path ++ ".backup"` (overwriting any file already
there), then overwrite `config_path` with the serialized result.  Every
error occurs before the backup copy and the write, so an erroring run
performs no filesystem change. -/
def run_standard (fs : FS) : Except RunError FS :=
  match fs config_path with
  | none => .error .fileNotFound
  | some c =>
    match parseContent c with
    | none => .error .parseError
    | some config =>
      match transform_standard config with
      | .error e => .error (.patch e)
      | .ok config2 =>
          let afterBackup : FS := fun p =>
            if p = config_path ++ ".backup" then some c else fs p
          .ok (fun p =>
            if p = config_path then some (.json config2) else afterBackup p)

/-- A whole run of `setup-yolo-mode.py` over a filesystem; identical
shape, with the YOLO transformation and the `.yolo-backup` suffix. -/
def run_yolo (fs : FS) : Except RunError FS :=
  match fs config_path with
  | none => .error .fileNotFound
  | some c =>
    match parseContent c with
    | none => .error .parseError
    | some config =>
      match transform_yolo config with
      | .error e => .error (.patch e)
      | .ok config2 =>
          let afterBackup : FS := fun p =>
            if p = config_path ++ ".yolo-backup" then some c else fs p
          .ok (fun p =>
            if p = config_path then some (.json config2) else afterBackup p)

/-- The filesystem after a run: unchanged when the run raised. -/
def finalFS (r : Except RunError FS) (fs : FS) : FS :=
  match r with
  | .ok fs2 => fs2
  | .error _ => fs

/-- Result of a successful in-memory patch; `[]` on error.  Used to name
the output document of a concrete run. -/
def okOr (x : Except PatchError JObj) : JObj :=
  match x with
  | .ok c => c
  | .error _ => []

/-- A document whose `projects` mapping is empty. -/
def cfgEmpty : JObj := [("projects", .obj [])]

/-- A Project Record holding only a `history` field. -/
def recHist : JObj := [("history", .arr [.str "old"])]

/-- A `projects` mapping holding only the first fixed path. -/
def projOne : JObj := [(instance1_path, .obj recHist)]

/-- A document whose `projects` mapping holds only the first fixed
path. -/
def cfgOne : JObj := [("projects", .obj projOne)]

/-- A Project Record as the YOLO script leaves it: both custom flags
set. -/
def recYolo : JObj :=
  [("history", .arr []),
   ("autoApproveAllTools", .bool true),
   ("yoloMode", .bool true)]

/-- A document whose first fixed path carries `recYolo`. -/
def cfgYolo : JObj := [("projects", .obj [(instance1_path, .obj recYolo)])]

/-- A filesystem holding only the main config file, with an empty
`projects` mapping. -/
def fsEmptyCfg : FS :=
  fun p => if p = config_path then some (.json cfgEmpty) else none

/-- A filesystem with no file at all. -/
def fsMissing : FS := fun _ => none

/-- A filesystem whose main config file is not valid JSON. -/
def fsRaw : FS :=
  fun p => if p = config_path then some (.raw "not json") else none

/-- A filesystem whose main config file is a JSON object without a
`projects` key. -/
def fsNoProjects : FS :=
  fun p => if p = config_path then some (.json [("other", .null)]) else none

/-! ## Association-list lemmas -/

theorem lookup_setKey_self (l : JObj) (k : String) (v : JValue) :
    lookup (setKey l k v) k = some v := by
  induction l with
  | nil => simp [setKey, lookup]
  | cons kv rest ih =>
      obtain ⟨k', v'⟩ := kv
      by_cases h : k' = k
      · simp [setKey, lookup, h]
      · simp [setKey, lookup, h, ih]

theorem lookup_setKey_ne (l : JObj) (k q : String) (v : JValue)
    (h : k ≠ q) : lookup (setKey l k v) q = lookup l q := by
  induction l with
  | nil => simp [setKey, lookup, h]
  | cons kv rest ih =>
      obtain ⟨k', v'⟩ := kv
      by_cases hk : k' = k
      · subst hk; simp [setKey, lookup, h]
      · simp [setKey, lookup, hk, ih]

theorem setKey_eq_self (l : JObj) (k : String) (v : JValue)
    (h : lookup l k = some v) : setKey l k v = l := by
  induction l with
  | nil => simp [lookup] at h
  | cons kv rest ih =>
      obtain ⟨k', v'⟩ := kv
      by_cases hk : k' = k
      · simp [lookup, hk] at h
        simp [setKey, hk, h]
      · simp [lookup, hk] at h
        simp [setKey, hk, ih h]

theorem hasKey_false_iff (l : JObj) (k : String) :
    hasKey l k = false ↔ lookup l k = none := by
  cases h : lookup l k <;> simp [hasKey, h]

/-! ## Update-step lemmas -/

theorem updStd_of_absent (ps : JObj) (p : String)
    (h : lookup ps p = none) :
    updateStandardPath ps p = .ok (setKey ps p newRecord) := by
  simp [updateStandardPath, hasKey, h]

theorem updStd_of_obj (ps : JObj) (p : String) (r : JObj)
    (h : lookup ps p = some (.obj r)) :
    updateStandardPath ps p = .ok (setKey ps p (.obj (stdFields r))) := by
  simp [updateStandardPath, hasKey, h]

theorem updStd_ok_cases (ps : JObj) (p : String) (ps' : JObj)
    (h : updateStandardPath ps p = .ok ps') :
    (lookup ps p = none ∧ ps' = setKey ps p newRecord) ∨
    (∃ r, lookup ps p = some (.obj r) ∧
      ps' = setKey ps p (.obj (stdFields r))) := by
  cases hl : lookup ps p with
  | none =>
      rw [updStd_of_absent ps p hl] at h
      exact Or.inl ⟨rfl, (Except.ok.injEq _ _ ▸ h).symm⟩
  | some v =>
      cases v with
      | obj r =>
          rw [updStd_of_obj ps p r hl] at h
          exact Or.inr ⟨r, rfl, (Except.ok.injEq _ _ ▸ h).symm⟩
      | str s => simp [updateStandardPath, hasKey, hl] at h
      | bool b => simp [updateStandardPath, hasKey, hl] at h
      | num n => simp [updateStandardPath, hasKey, hl] at h
      | null => simp [updateStandardPath, hasKey, hl] at h
      | arr xs => simp [updateStandardPath, hasKey, hl] at h

theorem updYolo_of_absent (ps : JObj) (p : String)
    (h : lookup ps p = none) : updateYoloPath ps p = .ok ps := by
  simp [updateYoloPath, hasKey, h]

theorem updYolo_of_obj (ps : JObj) (p : String) (r : JObj)
    (h : lookup ps p = some (.obj r)) :
    updateYoloPath ps p = .ok (setKey ps p (.obj (yoloFields r))) := by
  simp [updateYoloPath, hasKey, h]

theorem updYolo_ok_cases (ps : JObj) (p : String) (ps' : JObj)
    (h : updateYoloPath ps p = .ok ps') :
    (lookup ps p = none ∧ ps' = ps) ∨
    (∃ r, lookup ps p = some (.obj r) ∧
      ps' = setKey ps p (.obj (yoloFields r))) := by
  cases hl : lookup ps p with
  | none =>
      rw [updYolo_of_absent ps p hl] at h
      exact Or.inl ⟨rfl, (Except.ok.injEq _ _ ▸ h).symm⟩
  | some v =>
      cases v with
      | obj r =>
          rw [updYolo_of_obj ps p r hl] at h
          exact Or.inr ⟨r, rfl, (Except.ok.injEq _ _ ▸ h).symm⟩
      | str s => simp [updateYoloPath, hasKey, hl] at h
      | bool b => simp [updateYoloPath, hasKey, hl] at h
      | num n => simp [updateYoloPath, hasKey, hl] at h
      | null => simp [updateYoloPath, hasKey, hl] at h
      | arr xs => simp [updateYoloPath, hasKey, hl] at h

theorem updStd_lookup_ne (ps : JObj) (p : String) (ps' : JObj) (q : String)
    (h : updateStandardPath ps p = .ok ps') (hq : q ≠ p) :
    lookup ps' q = lookup ps q := by
  rcases updStd_ok_cases ps p ps' h with ⟨_, rfl⟩ | ⟨r, _, rfl⟩ <;>
    exact lookup_setKey_ne ps p q _ (Ne.symm hq)

theorem updYolo_lookup_ne (ps : JObj) (p : String) (ps' : JObj) (q : String)
    (h : updateYoloPath ps p = .ok ps') (hq : q ≠ p) :
    lookup ps' q = lookup ps q := by
  rcases updYolo_ok_cases ps p ps' h with ⟨_, rfl⟩ | ⟨r, _, rfl⟩
  · rfl
  · exact lookup_setKey_ne ps p q _ (Ne.symm hq)

/-! ## Field lemmas for the written records -/

theorem stdFields_allowedTools (r : JObj) :
    lookup (stdFields r) "allowedTools" = some safeArr := by
  unfold stdFields
  rw [lookup_setKey_ne _ _ _ _ (by decide),
      lookup_setKey_ne _ _ _ _ (by decide),
      lookup_setKey_self]

theorem stdFields_trust (r : JObj) :
    lookup (stdFields r) "hasTrustDialogAccepted" = some (.bool true) := by
  unfold stdFields
  rw [lookup_setKey_ne _ _ _ _ (by decide), lookup_setKey_self]

theorem stdFields_includes (r : JObj) :
    lookup (stdFields r) "hasClaudeMdExternalIncludesApproved" =
      some (.bool true) := by
  unfold stdFields
  rw [lookup_setKey_self]

theorem stdFields_other (r : JObj) (f : String)
    (h1 : f ≠ "allowedTools") (h2 : f ≠ "hasTrustDialogAccepted")
    (h3 : f ≠ "hasClaudeMdExternalIncludesApproved") :
    lookup (stdFields r) f = lookup r f := by
  unfold stdFields
  rw [lookup_setKey_ne _ _ _ _ (Ne.symm h3),
      lookup_setKey_ne _ _ _ _ (Ne.symm h2),
      lookup_setKey_ne _ _ _ _ (Ne.symm h1)]

theorem yoloFields_allowedTools (r : JObj) :
    lookup (yoloFields r) "allowedTools" = some yoloArr := by
  unfold yoloFields
  rw [lookup_setKey_ne _ _ _ _ (by decide),
      lookup_setKey_ne _ _ _ _ (by decide),
      lookup_setKey_ne _ _ _ _ (by decide),
      lookup_setKey_ne _ _ _ _ (by decide),
      lookup_setKey_self]

theorem yoloFields_trust (r : JObj) :
    lookup (yoloFields r) "hasTrustDialogAccepted" = some (.bool true) := by
  unfold yoloFields
  rw [lookup_setKey_ne _ _ _ _ (by decide),
      lookup_setKey_ne _ _ _ _ (by decide),
      lookup_setKey_ne _ _ _ _ (by decide),
      lookup_setKey_self]

theorem yoloFields_includes (r : JObj) :
    lookup (yoloFields r) "hasClaudeMdExternalIncludesApproved" =
      some (.bool true) := by
  unfold yoloFields
  rw [lookup_setKey_ne _ _ _ _ (by decide),
      lookup_setKey_ne _ _ _ _ (by decide),
      lookup_setKey_self]

theorem yoloFields_autoApprove (r : JObj) :
    lookup (yoloFields r) "autoApproveAllTools" = some (.bool true) := by
  unfold yoloFields
  rw [lookup_setKey_ne _ _ _ _ (by decide), lookup_setKey_self]

theorem yoloFields_yoloMode (r : JObj) :
    lookup (yoloFields r) "yoloMode" = some (.bool true) := by
  unfold yoloFields
  rw [lookup_setKey_self]

theorem yoloFields_other (r : JObj) (f : String)
    (h1 : f ≠ "allowedTools") (h2 : f ≠ "hasTrustDialogAccepted")
    (h3 : f ≠ "hasClaudeMdExternalIncludesApproved")
    (h4 : f ≠ "autoApproveAllTools") (h5 : f ≠ "yoloMode") :
    lookup (yoloFields r) f = lookup r f := by
  unfold yoloFields
  rw [lookup_setKey_ne _ _ _ _ (Ne.symm h5),
      lookup_setKey_ne _ _ _ _ (Ne.symm h4),
      lookup_setKey_ne _ _ _ _ (Ne.symm h3),
      lookup_setKey_ne _ _ _ _ (Ne.symm h2),
      lookup_setKey_ne _ _ _ _ (Ne.symm h1)]

/-! ## Transform inversion -/

theorem instance_paths_ne : instance1_path ≠ instance2_path := by decide

theorem transformStd_ok_inv (config c' : JObj)
    (h : transform_standard config = .ok c') :
    ∃ ps ps1 ps2, lookup config "projects" = some (.obj ps) ∧
      updateStandardPath ps instance1_path = .ok ps1 ∧
      updateStandardPath ps1 instance2_path = .ok ps2 ∧
      c' = setKey config "projects" (.obj ps2) := by
  unfold transform_standard at h
  split at h
  · cases h
  · rename_i ps hps
    split at h
    · cases h
    · rename_i ps1 h1
      split at h
      · cases h
      · rename_i ps2 h2
        exact ⟨ps, ps1, ps2, hps, h1, h2, (Except.ok.injEq _ _ ▸ h).symm⟩
  · cases h

theorem setKey_of_absent (l : JObj) (k : String) (v : JValue)
    (h : lookup l k = none) : setKey l k v = l ++ [(k, v)] := by
  induction l with
  | nil => simp [setKey]
  | cons kv rest ih =>
      obtain ⟨k', v'⟩ := kv
      by_cases hk : k' = k
      · simp [lookup, hk] at h
      · simp [lookup, hk] at h
        simp [setKey, hk, ih h]

theorem lookup_append (l1 l2 : JObj) (q : String) :
    lookup (l1 ++ l2) q =
      match lookup l1 q with
      | some v => some v
      | none => lookup l2 q := by
  induction l1 with
  | nil => simp [lookup]
  | cons kv rest ih =>
      obtain ⟨k', v'⟩ := kv
      by_cases hk : k' = q
      · simp [lookup, hk]
      · simp [lookup, hk, ih]

theorem stdFields_eq_self (r : JObj)
    (h1 : lookup r "allowedTools" = some safeArr)
    (h2 : lookup r "hasTrustDialogAccepted" = some (.bool true))
    (h3 : lookup r "hasClaudeMdExternalIncludesApproved" = some (.bool true)) :
    stdFields r = r := by
  unfold stdFields
  rw [setKey_eq_self _ _ _ h1, setKey_eq_self _ _ _ h2, setKey_eq_self _ _ _ h3]

/-- Whichever branch the standard loop body takes, the record now at the
path has the standard list and both trust flags. -/
theorem updStd_result_fields (ps : JObj) (p : String) (ps' : JObj)
    (h : updateStandardPath ps p = .ok ps') :
    ∃ r, lookup ps' p = some (.obj r) ∧
      lookup r "allowedTools" = some safeArr ∧
      lookup r "hasTrustDialogAccepted" = some (.bool true) ∧
      lookup r "hasClaudeMdExternalIncludesApproved" = some (.bool true) := by
  rcases updStd_ok_cases ps p ps' h with ⟨_, rfl⟩ | ⟨r, _, rfl⟩
  · refine ⟨newRecordFields, ?_, rfl, rfl, rfl⟩
    exact lookup_setKey_self ps p newRecord
  · exact ⟨stdFields r, lookup_setKey_self ps p _, stdFields_allowedTools r,
      stdFields_trust r, stdFields_includes r⟩

theorem transformStd_eq (config ps ps1 ps2 : JObj)
    (h : lookup config "projects" = some (.obj ps))
    (h1 : updateStandardPath ps instance1_path = .ok ps1)
    (h2 : updateStandardPath ps1 instance2_path = .ok ps2) :
    transform_standard config = .ok (setKey config "projects" (.obj ps2)) := by
  simp only [transform_standard, h, h1, h2]

theorem transformYolo_eq (config ps ps1 ps2 : JObj)
    (h : lookup config "projects" = some (.obj ps))
    (h1 : updateYoloPath ps instance1_path = .ok ps1)
    (h2 : updateYoloPath ps1 instance2_path = .ok ps2) :
    transform_yolo config = .ok (setKey config "projects" (.obj ps2)) := by
  simp only [transform_yolo, h, h1, h2]

theorem transformYolo_ok_inv (config c' : JObj)
    (h : transform_yolo config = .ok c') :
    ∃ ps ps1 ps2, lookup config "projects" = some (.obj ps) ∧
      updateYoloPath ps instance1_path = .ok ps1 ∧
      updateYoloPath ps1 instance2_path = .ok ps2 ∧
      c' = setKey config "projects" (.obj ps2) := by
  unfold transform_yolo at h
  split at h
  · cases h
  · rename_i ps hps
    split at h
    · cases h
    · rename_i ps1 h1
      split at h
      · cases h
      · rename_i ps2 h2
        exact ⟨ps, ps1, ps2, hps, h1, h2, (Except.ok.injEq _ _ ▸ h).symm⟩
  · cases h

/-- After the standard transformation, an already-existing record at a
fixed path is exactly `stdFields` of its old value, all other paths and
top-level keys keep their lookups. -/
theorem transformStd_existing (config c' ps r : JObj) (p : String)
    (hp : p = instance1_path ∨ p = instance2_path)
    (hcfg : lookup config "projects" = some (.obj ps))
    (hrec : lookup ps p = some (.obj r))
    (htr : transform_standard config = .ok c') :
    ∃ ps', lookup c' "projects" = some (.obj ps') ∧
      (∀ k, k ≠ "projects" → lookup c' k = lookup config k) ∧
      (∀ q, q ≠ instance1_path → q ≠ instance2_path →
        lookup ps' q = lookup ps q) ∧
      lookup ps' p = some (.obj (stdFields r)) := by
  obtain ⟨ps0, ps1, ps2, hps0, h1, h2, rfl⟩ := transformStd_ok_inv config c' htr
  have heq : ps = ps0 :=
    (JValue.obj.inj (Option.some.inj (hps0.symm.trans hcfg))).symm
  subst heq
  refine ⟨ps2, lookup_setKey_self config "projects" _, ?_, ?_, ?_⟩
  · intro k hk
    exact lookup_setKey_ne config "projects" k _ (Ne.symm hk)
  · intro q hq1 hq2
    rw [updStd_lookup_ne ps1 instance2_path ps2 q h2 hq2,
        updStd_lookup_ne ps instance1_path ps1 q h1 hq1]
  · rcases hp with rfl | rfl
    · obtain rfl : ps1 = setKey ps instance1_path (.obj (stdFields r)) :=
        Except.ok.inj (h1.symm.trans (updStd_of_obj ps instance1_path r hrec))
      rw [updStd_lookup_ne _ instance2_path ps2 instance1_path h2
            instance_paths_ne]
      exact lookup_setKey_self ps instance1_path _
    · have hrec1 : lookup ps1 instance2_path = some (.obj r) := by
        rw [updStd_lookup_ne ps instance1_path ps1 instance2_path h1
              (Ne.symm instance_paths_ne)]
        exact hrec
      obtain rfl : ps2 = setKey ps1 instance2_path (.obj (stdFields r)) :=
        Except.ok.inj (h2.symm.trans (updStd_of_obj ps1 instance2_path r hrec1))
      exact lookup_setKey_self ps1 instance2_path _

/-- Inversion of a successful standard run: the pre-run bytes parsed, the
patch succeeded, and the output filesystem is the input with the backup
written at `config_path ++ ".backup"` and the new serialization at
`config_path`. -/
theorem runStd_ok_inv (fs fs' : FS) (h : run_standard fs = .ok fs') :
    ∃ c config config2, fs config_path = some c ∧
      parseContent c = some config ∧
      transform_standard config = .ok config2 ∧
      fs' = fun p =>
        if p = config_path then some (.json config2)
        else if p = config_path ++ ".backup" then some c else fs p := by
  unfold run_standard at h
  split at h
  · cases h
  · rename_i c hc
    split at h
    · cases h
    · rename_i config hcfg
      split at h
      · cases h
      · rename_i config2 htr
        refine ⟨c, config, config2, hc, hcfg, htr, ?_⟩
        have := Except.ok.inj h
        rw [← this]

/-- Inversion of a successful YOLO run. -/
theorem runYolo_ok_inv (fs fs' : FS) (h : run_yolo fs = .ok fs') :
    ∃ c config config2, fs config_path = some c ∧
      parseContent c = some config ∧
      transform_yolo config = .ok config2 ∧
      fs' = fun p =>
        if p = config_path then some (.json config2)
        else if p = config_path ++ ".yolo-backup" then some c else fs p := by
  unfold run_yolo at h
  split at h
  · cases h
  · rename_i c hc
    split at h
    · cases h
    · rename_i config hcfg
      split at h
      · cases h
      · rename_i config2 htr
        refine ⟨c, config, config2, hc, hcfg, htr, ?_⟩
        have := Except.ok.inj h
        rw [← this]

/-- C1 (counterexample to the claim as stated): on the document
`{"projects": {}}` the permissive script runs to completion yet creates
no Project Record, so after it neither fixed path exists in
`doc.projects`, contradicting "for each of the two fixed directory paths
the corresponding Project Record exists". -/
theorem C1_counterexample :
    transform_yolo cfgEmpty = .ok cfgEmpty ∧
    lookup cfgEmpty "projects" = some (.obj []) ∧
    lookup ([] : JObj) instance1_path = none ∧
    lookup ([] : JObj) instance2_path = none :=
  ⟨rfl, rfl, rfl, rfl⟩

/-- C1 (amended): after the standard script both fixed paths exist with
the standard list and both trust flags true; after the permissive script
each fixed path that was already present has the permissive list and both
trust flags true, while a fixed path absent from the input stays
absent. -/
theorem C1_invariant_amended :
    (∀ config c', transform_standard config = .ok c' →
      ∀ p, p = instance1_path ∨ p = instance2_path →
      ∃ ps r, lookup c' "projects" = some (.obj ps) ∧
        lookup ps p = some (.obj r) ∧
        lookup r "allowedTools" = some safeArr ∧
        lookup r "hasTrustDialogAccepted" = some (.bool true) ∧
        lookup r "hasClaudeMdExternalIncludesApproved" = some (.bool true)) ∧
    (∀ config c', transform_yolo config = .ok c' →
      ∀ p, p = instance1_path ∨ p = instance2_path →
      ∃ ps ps', lookup config "projects" = some (.obj ps) ∧
        lookup c' "projects" = some (.obj ps') ∧
        (lookup ps p = none → lookup ps' p = none) ∧
        (∀ r, lookup ps p = some (.obj r) →
          ∃ r', lookup ps' p = some (.obj r') ∧
            lookup r' "allowedTools" = some yoloArr ∧
            lookup r' "hasTrustDialogAccepted" = some (.bool true) ∧
            lookup r' "hasClaudeMdExternalIncludesApproved" =
              some (.bool true))) := by
  constructor
  · intro config c' h p hp
    obtain ⟨ps, ps1, ps2, hps, h1, h2, rfl⟩ := transformStd_ok_inv config c' h
    rcases hp with rfl | rfl
    · obtain ⟨r, hr, f1, f2, f3⟩ := updStd_result_fields ps instance1_path ps1 h1
      refine ⟨ps2, r, lookup_setKey_self config "projects" _, ?_, f1, f2, f3⟩
      rw [updStd_lookup_ne ps1 instance2_path ps2 instance1_path h2
            instance_paths_ne]
      exact hr
    · obtain ⟨r, hr, f1, f2, f3⟩ :=
        updStd_result_fields ps1 instance2_path ps2 h2
      exact ⟨ps2, r, lookup_setKey_self config "projects" _, hr, f1, f2, f3⟩
  · intro config c' h p hp
    obtain ⟨ps, ps1, ps2, hps, h1, h2, rfl⟩ := transformYolo_ok_inv config c' h
    refine ⟨ps, ps2, hps, lookup_setKey_self config "projects" _, ?_, ?_⟩
    · intro hn
      rcases hp with rfl | rfl
      · have hps1 : ps1 = ps :=
          Except.ok.inj (h1.symm.trans (updYolo_of_absent ps instance1_path hn))
        rw [updYolo_lookup_ne ps1 instance2_path ps2 instance1_path h2
              instance_paths_ne, hps1]
        exact hn
      · have hn1 : lookup ps1 instance2_path = none := by
          rw [updYolo_lookup_ne ps instance1_path ps1 instance2_path h1
                (Ne.symm instance_paths_ne)]
          exact hn
        obtain rfl : ps2 = ps1 :=
          Except.ok.inj
            (h2.symm.trans (updYolo_of_absent ps1 instance2_path hn1))
        exact hn1
    · intro r hr
      rcases hp with rfl | rfl
      · obtain rfl : ps1 = setKey ps instance1_path (.obj (yoloFields r)) :=
          Except.ok.inj
            (h1.symm.trans (updYolo_of_obj ps instance1_path r hr))
        refine ⟨yoloFields r, ?_, yoloFields_allowedTools r,
          yoloFields_trust r, yoloFields_includes r⟩
        rw [updYolo_lookup_ne _ instance2_path ps2 instance1_path h2
              instance_paths_ne]
        exact lookup_setKey_self ps instance1_path _
      · have hr1 : lookup ps1 instance2_path = some (.obj r) := by
          rw [updYolo_lookup_ne ps instance1_path ps1 instance2_path h1
                (Ne.symm instance_paths_ne)]
          exact hr
        obtain rfl : ps2 = setKey ps1 instance2_path (.obj (yoloFields r)) :=
          Except.ok.inj
            (h2.symm.trans (updYolo_of_obj ps1 instance2_path r hr1))
        exact ⟨yoloFields r, lookup_setKey_self ps1 instance2_path _,
          yoloFields_allowedTools r, yoloFields_trust r, yoloFields_includes r⟩

/-- C1 (witness): the amended invariant applied to the concrete documents
`cfgEmpty` (standard variant) and `cfgOne` (permissive variant) at the
first fixed path. -/
theorem C1_witness :
    (transform_standard cfgEmpty = .ok (okOr (transform_standard cfgEmpty)) ∧
      (∃ ps r,
        lookup (okOr (transform_standard cfgEmpty)) "projects" =
          some (.obj ps) ∧
        lookup ps instance1_path = some (.obj r) ∧
        lookup r "allowedTools" = some safeArr ∧
        lookup r "hasTrustDialogAccepted" = some (.bool true) ∧
        lookup r "hasClaudeMdExternalIncludesApproved" = some (.bool true))) ∧
    (transform_yolo cfgOne = .ok (okOr (transform_yolo cfgOne)) ∧
      (∃ ps ps', lookup cfgOne "projects" = some (.obj ps) ∧
        lookup (okOr (transform_yolo cfgOne)) "projects" = some (.obj ps') ∧
        (lookup ps instance1_path = none → lookup ps' instance1_path = none) ∧
        (∀ r, lookup ps instance1_path = some (.obj r) →
          ∃ r', lookup ps' instance1_path = some (.obj r') ∧
            lookup r' "allowedTools" = some yoloArr ∧
            lookup r' "hasTrustDialogAccepted" = some (.bool true) ∧
            lookup r' "hasClaudeMdExternalIncludesApproved" =
              some (.bool true)))) :=
  ⟨⟨rfl, C1_invariant_amended.1 cfgEmpty _ rfl instance1_path (Or.inl rfl)⟩,
   ⟨rfl, C1_invariant_amended.2 cfgOne _ rfl instance1_path (Or.inl rfl)⟩⟩

/-- C2: on a document whose `projects` mapping contains neither fixed
path, the standard script appends exactly the two fixed paths, each
mapped to the fresh record whose `allowedTools` is the 9-item standard
list, whose trust flags are true and whose auxiliary fields have the
fixed defaults (empty history, empty pattern lists, zeroed counter). -/
theorem C2_standard_creates_both (config ps : JObj)
    (h : lookup config "projects" = some (.obj ps))
    (hn1 : lookup ps instance1_path = none)
    (hn2 : lookup ps instance2_path = none) :
    transform_standard config = .ok (setKey config "projects"
      (.obj (ps ++ [(instance1_path, newRecord),
                    (instance2_path, newRecord)]))) ∧
    safe_tools.length = 9 ∧
    lookup newRecordFields "allowedTools" = some safeArr ∧
    lookup newRecordFields "hasTrustDialogAccepted" = some (.bool true) ∧
    lookup newRecordFields "hasClaudeMdExternalIncludesApproved" =
      some (.bool true) ∧
    lookup newRecordFields "history" = some (.arr []) ∧
    lookup newRecordFields "mcpContextUris" = some (.arr []) ∧
    lookup newRecordFields "ignorePatterns" = some (.arr []) ∧
    lookup newRecordFields "enabledMcpjsonServers" = some (.arr []) ∧
    lookup newRecordFields "disabledMcpjsonServers" = some (.arr []) ∧
    lookup newRecordFields "projectOnboardingSeenCount" = some (.num 0) := by
  have e1 : updateStandardPath ps instance1_path =
      .ok (ps ++ [(instance1_path, newRecord)]) := by
    rw [updStd_of_absent ps instance1_path hn1,
        setKey_of_absent ps instance1_path newRecord hn1]
  have hl2 : lookup (ps ++ [(instance1_path, newRecord)]) instance2_path =
      none := by
    rw [lookup_append, hn2]
    simp [lookup, instance_paths_ne]
  have e2 : updateStandardPath (ps ++ [(instance1_path, newRecord)])
      instance2_path =
      .ok (ps ++ [(instance1_path, newRecord), (instance2_path, newRecord)]) := by
    rw [updStd_of_absent _ instance2_path hl2,
        setKey_of_absent _ instance2_path newRecord hl2, List.append_assoc]
    rfl
  exact ⟨transformStd_eq config ps _ _ h e1 e2, rfl, rfl, rfl, rfl, rfl, rfl,
    rfl, rfl, rfl, rfl⟩

/-- C2 (witness): the scenario `{"projects": {}}`, whose output `projects`
mapping has exactly the two fixed paths as keys. -/
theorem C2_witness :
    lookup cfgEmpty "projects" = some (.obj []) ∧
    lookup ([] : JObj) instance1_path = none ∧
    lookup ([] : JObj) instance2_path = none ∧
    (transform_standard cfgEmpty = .ok (setKey cfgEmpty "projects"
      (.obj (([] : JObj) ++ [(instance1_path, newRecord),
                             (instance2_path, newRecord)]))) ∧
     safe_tools.length = 9 ∧
     lookup newRecordFields "allowedTools" = some safeArr ∧
     lookup newRecordFields "hasTrustDialogAccepted" = some (.bool true) ∧
     lookup newRecordFields "hasClaudeMdExternalIncludesApproved" =
       some (.bool true) ∧
     lookup newRecordFields "history" = some (.arr []) ∧
     lookup newRecordFields "mcpContextUris" = some (.arr []) ∧
     lookup newRecordFields "ignorePatterns" = some (.arr []) ∧
     lookup newRecordFields "enabledMcpjsonServers" = some (.arr []) ∧
     lookup newRecordFields "disabledMcpjsonServers" = some (.arr []) ∧
     lookup newRecordFields "projectOnboardingSeenCount" = some (.num 0)) :=
  ⟨rfl, rfl, rfl, C2_standard_creates_both cfgEmpty [] rfl rfl rfl⟩

/-- C3: on a document whose `projects` mapping contains exactly one fixed
path, the permissive script leaves the missing path absent and gives the
present path's record the 13-item permissive list, both trust flags, and
the two extra flags `autoApproveAllTools` and `yoloMode`. -/
theorem C3_yolo_updates_only_existing (config ps r : JObj) (p q : String)
    (hpq : (p = instance1_path ∧ q = instance2_path) ∨
           (p = instance2_path ∧ q = instance1_path))
    (h : lookup config "projects" = some (.obj ps))
    (hr : lookup ps p = some (.obj r))
    (hq : lookup ps q = none) :
    transform_yolo config =
      .ok (setKey config "projects" (.obj (setKey ps p (.obj (yoloFields r))))) ∧
    lookup (setKey ps p (.obj (yoloFields r))) q = none ∧
    yolo_tools.length = 13 ∧
    lookup (yoloFields r) "allowedTools" = some yoloArr ∧
    lookup (yoloFields r) "hasTrustDialogAccepted" = some (.bool true) ∧
    lookup (yoloFields r) "hasClaudeMdExternalIncludesApproved" =
      some (.bool true) ∧
    lookup (yoloFields r) "autoApproveAllTools" = some (.bool true) ∧
    lookup (yoloFields r) "yoloMode" = some (.bool true) := by
  rcases hpq with ⟨rfl, rfl⟩ | ⟨rfl, rfl⟩
  · have e1 := updYolo_of_obj ps instance1_path r hr
    have hl2 : lookup (setKey ps instance1_path (.obj (yoloFields r)))
        instance2_path = none := by
      rw [lookup_setKey_ne ps instance1_path instance2_path _
            instance_paths_ne]
      exact hq
    have e2 := updYolo_of_absent _ instance2_path hl2
    exact ⟨transformYolo_eq config ps _ _ h e1 e2, hl2, rfl,
      yoloFields_allowedTools r, yoloFields_trust r, yoloFields_includes r,
      yoloFields_autoApprove r, yoloFields_yoloMode r⟩
  · have e1 := updYolo_of_absent ps instance1_path hq
    have e2 := updYolo_of_obj ps instance2_path r hr
    have hl1 : lookup (setKey ps instance2_path (.obj (yoloFields r)))
        instance1_path = none := by
      rw [lookup_setKey_ne ps instance2_path instance1_path _
            (Ne.symm instance_paths_ne)]
      exact hq
    exact ⟨transformYolo_eq config ps _ _ h e1 e2, hl1, rfl,
      yoloFields_allowedTools r, yoloFields_trust r, yoloFields_includes r,
      yoloFields_autoApprove r, yoloFields_yoloMode r⟩

/-- C3 (witness): the permissive script on `cfgOne`, which holds only the
first fixed path. -/
theorem C3_witness :
    lookup cfgOne "projects" = some (.obj projOne) ∧
    lookup projOne instance1_path = some (.obj recHist) ∧
    lookup projOne instance2_path = none ∧
    (transform_yolo cfgOne =
      .ok (setKey cfgOne "projects"
        (.obj (setKey projOne instance1_path (.obj (yoloFields recHist))))) ∧
     lookup (setKey projOne instance1_path (.obj (yoloFields recHist)))
       instance2_path = none ∧
     yolo_tools.length = 13 ∧
     lookup (yoloFields recHist) "allowedTools" = some yoloArr ∧
     lookup (yoloFields recHist) "hasTrustDialogAccepted" = some (.bool true) ∧
     lookup (yoloFields recHist) "hasClaudeMdExternalIncludesApproved" =
       some (.bool true) ∧
     lookup (yoloFields recHist) "autoApproveAllTools" = some (.bool true) ∧
     lookup (yoloFields recHist) "yoloMode" = some (.bool true)) :=
  ⟨rfl, rfl, rfl,
   C3_yolo_updates_only_existing cfgOne projOne recHist
     instance1_path instance2_path (Or.inl ⟨rfl, rfl⟩) rfl rfl rfl⟩

/-- C9: on a document whose `projects` mapping contains neither fixed
path, the permissive script's in-memory transformation is the identity:
the written document is structurally equal to the input. -/
theorem C9_yolo_identity_when_absent (config ps : JObj)
    (h : lookup config "projects" = some (.obj ps))
    (hn1 : lookup ps instance1_path = none)
    (hn2 : lookup ps instance2_path = none) :
    transform_yolo config = .ok config := by
  have e1 := updYolo_of_absent ps instance1_path hn1
  have e2 := updYolo_of_absent ps instance2_path hn2
  have ht := transformYolo_eq config ps ps ps h e1 e2
  rw [setKey_eq_self config "projects" (.obj ps) h] at ht
  exact ht

/-- C9 (witness): the permissive script leaves `{"projects": {}}`
untouched. -/
theorem C9_witness :
    lookup cfgEmpty "projects" = some (.obj []) ∧
    lookup ([] : JObj) instance1_path = none ∧
    lookup ([] : JObj) instance2_path = none ∧
    transform_yolo cfgEmpty = .ok cfgEmpty :=
  ⟨rfl, rfl, rfl, C9_yolo_identity_when_absent cfgEmpty [] rfl rfl rfl⟩

/-- C4: when a fixed path already has a record, a successful standard run
rewrites only that record's `allowedTools` and two trust flags; every
other field of the record, every record at a non-fixed path, and every
other top-level key keep their values. -/
theorem C4_standard_frame (config c' ps r : JObj) (p : String)
    (hp : p = instance1_path ∨ p = instance2_path)
    (hcfg : lookup config "projects" = some (.obj ps))
    (hrec : lookup ps p = some (.obj r))
    (htr : transform_standard config = .ok c') :
    ∃ ps' r',
      lookup c' "projects" = some (.obj ps') ∧
      (∀ k, k ≠ "projects" → lookup c' k = lookup config k) ∧
      (∀ q, q ≠ instance1_path → q ≠ instance2_path →
        lookup ps' q = lookup ps q) ∧
      lookup ps' p = some (.obj r') ∧
      lookup r' "allowedTools" = some safeArr ∧
      lookup r' "hasTrustDialogAccepted" = some (.bool true) ∧
      lookup r' "hasClaudeMdExternalIncludesApproved" = some (.bool true) ∧
      (∀ f, f ≠ "allowedTools" → f ≠ "hasTrustDialogAccepted" →
        f ≠ "hasClaudeMdExternalIncludesApproved" →
        lookup r' f = lookup r f) := by
  obtain ⟨ps', hproj, hframe, hother, hrec'⟩ :=
    transformStd_existing config c' ps r p hp hcfg hrec htr
  exact ⟨ps', stdFields r, hproj, hframe, hother, hrec',
    stdFields_allowedTools r, stdFields_trust r, stdFields_includes r,
    fun f h1 h2 h3 => stdFields_other r f h1 h2 h3⟩

/-- C4 (witness): the standard run on `cfgOne`, whose first fixed path
carries the record `recHist`. -/
theorem C4_witness :
    (instance1_path = instance1_path ∨ instance1_path = instance2_path) ∧
    lookup cfgOne "projects" = some (.obj projOne) ∧
    lookup projOne instance1_path = some (.obj recHist) ∧
    transform_standard cfgOne = .ok (okOr (transform_standard cfgOne)) ∧
    (∃ ps' r',
      lookup (okOr (transform_standard cfgOne)) "projects" =
        some (.obj ps') ∧
      (∀ k, k ≠ "projects" →
        lookup (okOr (transform_standard cfgOne)) k = lookup cfgOne k) ∧
      (∀ q, q ≠ instance1_path → q ≠ instance2_path →
        lookup ps' q = lookup projOne q) ∧
      lookup ps' instance1_path = some (.obj r') ∧
      lookup r' "allowedTools" = some safeArr ∧
      lookup r' "hasTrustDialogAccepted" = some (.bool true) ∧
      lookup r' "hasClaudeMdExternalIncludesApproved" = some (.bool true) ∧
      (∀ f, f ≠ "allowedTools" → f ≠ "hasTrustDialogAccepted" →
        f ≠ "hasClaudeMdExternalIncludesApproved" →
        lookup r' f = lookup recHist f)) :=
  ⟨Or.inl rfl, rfl, rfl, rfl,
   C4_standard_frame cfgOne _ projOne recHist instance1_path
     (Or.inl rfl) rfl rfl rfl⟩

/-- C5: the standard script's in-memory transformation is idempotent:
a second application to the document produced by a successful first
application returns that document unchanged. -/
theorem C5_standard_idempotent (config c' : JObj)
    (h : transform_standard config = .ok c') :
    transform_standard c' = .ok c' := by
  obtain ⟨ps, ps1, ps2, hps, h1, h2, rfl⟩ := transformStd_ok_inv config c' h
  obtain ⟨r1, hr1, f11, f12, f13⟩ :=
    updStd_result_fields ps instance1_path ps1 h1
  have hr1' : lookup ps2 instance1_path = some (.obj r1) := by
    rw [updStd_lookup_ne ps1 instance2_path ps2 instance1_path h2
          instance_paths_ne]
    exact hr1
  obtain ⟨r2, hr2, f21, f22, f23⟩ :=
    updStd_result_fields ps1 instance2_path ps2 h2
  have e1 : updateStandardPath ps2 instance1_path = .ok ps2 := by
    rw [updStd_of_obj ps2 instance1_path r1 hr1',
        stdFields_eq_self r1 f11 f12 f13, setKey_eq_self ps2 instance1_path _ hr1']
  have e2 : updateStandardPath ps2 instance2_path = .ok ps2 := by
    rw [updStd_of_obj ps2 instance2_path r2 hr2,
        stdFields_eq_self r2 f21 f22 f23, setKey_eq_self ps2 instance2_path _ hr2]
  have hproj : lookup (setKey config "projects" (.obj ps2)) "projects" =
      some (.obj ps2) := lookup_setKey_self config "projects" _
  have ht := transformStd_eq (setKey config "projects" (.obj ps2))
    ps2 ps2 ps2 hproj e1 e2
  rw [setKey_eq_self (setKey config "projects" (.obj ps2)) "projects"
        (.obj ps2) hproj] at ht
  exact ht

/-- C5 (witness): a second standard run on the output produced from
`{"projects": {}}` returns it unchanged. -/
theorem C5_witness :
    transform_standard cfgEmpty = .ok (okOr (transform_standard cfgEmpty)) ∧
    transform_standard (okOr (transform_standard cfgEmpty)) =
      .ok (okOr (transform_standard cfgEmpty)) :=
  ⟨rfl, C5_standard_idempotent cfgEmpty _ rfl⟩

/-- C10: on a record that the permissive script has already marked
(`autoApproveAllTools` and `yoloMode` both true), a successful standard
run restricts `allowedTools` to the 9-item standard list but leaves both
custom flags true: the standard script does not undo YOLO mode. -/
theorem C10_standard_keeps_yolo_flags (config c' ps r : JObj) (p : String)
    (hp : p = instance1_path ∨ p = instance2_path)
    (hcfg : lookup config "projects" = some (.obj ps))
    (hrec : lookup ps p = some (.obj r))
    (hauto : lookup r "autoApproveAllTools" = some (.bool true))
    (hyolo : lookup r "yoloMode" = some (.bool true))
    (htr : transform_standard config = .ok c') :
    ∃ ps' r', lookup c' "projects" = some (.obj ps') ∧
      lookup ps' p = some (.obj r') ∧
      lookup r' "allowedTools" = some safeArr ∧
      lookup r' "autoApproveAllTools" = some (.bool true) ∧
      lookup r' "yoloMode" = some (.bool true) := by
  obtain ⟨ps', hproj, _, _, hrec'⟩ :=
    transformStd_existing config c' ps r p hp hcfg hrec htr
  refine ⟨ps', stdFields r, hproj, hrec', stdFields_allowedTools r, ?_, ?_⟩
  · rw [stdFields_other r "autoApproveAllTools"
        (by decide) (by decide) (by decide)]
    exact hauto
  · rw [stdFields_other r "yoloMode" (by decide) (by decide) (by decide)]
    exact hyolo

/-- C10 (witness): the standard run on `cfgYolo`, whose first fixed path
carries a record with both YOLO flags set. -/
theorem C10_witness :
    (instance1_path = instance1_path ∨ instance1_path = instance2_path) ∧
    lookup cfgYolo "projects" = some (.obj [(instance1_path, .obj recYolo)]) ∧
    lookup [(instance1_path, JValue.obj recYolo)] instance1_path =
      some (.obj recYolo) ∧
    lookup recYolo "autoApproveAllTools" = some (.bool true) ∧
    lookup recYolo "yoloMode" = some (.bool true) ∧
    transform_standard cfgYolo = .ok (okOr (transform_standard cfgYolo)) ∧
    (∃ ps' r',
      lookup (okOr (transform_standard cfgYolo)) "projects" =
        some (.obj ps') ∧
      lookup ps' instance1_path = some (.obj r') ∧
      lookup r' "allowedTools" = some safeArr ∧
      lookup r' "autoApproveAllTools" = some (.bool true) ∧
      lookup r' "yoloMode" = some (.bool true)) :=
  ⟨Or.inl rfl, rfl, rfl, rfl, rfl, rfl,
   C10_standard_keeps_yolo_flags cfgYolo _ [(instance1_path, .obj recYolo)]
     recYolo instance1_path (Or.inl rfl) rfl rfl rfl rfl rfl⟩

/-- C6: after any successful run of either script, the backup file at the
variant's suffixed path holds exactly the main file's pre-run bytes (the
copy is taken before the main file is overwritten, and replaces any file
already at the backup path). -/
theorem C6_backup_content :
    (∀ fs fs', run_standard fs = .ok fs' →
      ∃ c, fs config_path = some c ∧
        fs' (config_path ++ ".backup") = some c) ∧
    (∀ fs fs', run_yolo fs = .ok fs' →
      ∃ c, fs config_path = some c ∧
        fs' (config_path ++ ".yolo-backup") = some c) := by
  constructor
  · intro fs fs' h
    obtain ⟨c, config, config2, hc, _, _, rfl⟩ := runStd_ok_inv fs fs' h
    refine ⟨c, hc, ?_⟩
    dsimp only
    rw [if_neg (by decide : ¬ config_path ++ ".backup" = config_path),
        if_pos rfl]
  · intro fs fs' h
    obtain ⟨c, config, config2, hc, _, _, rfl⟩ := runYolo_ok_inv fs fs' h
    refine ⟨c, hc, ?_⟩
    dsimp only
    rw [if_neg (by decide : ¬ config_path ++ ".yolo-backup" = config_path),
        if_pos rfl]

/-- C6 (witness): both runs on a filesystem holding only the main config
file with an empty `projects` mapping. -/
theorem C6_witness :
    (∃ c, fsEmptyCfg config_path = some c ∧
      finalFS (run_standard fsEmptyCfg) fsEmptyCfg
        (config_path ++ ".backup") = some c) ∧
    (∃ c, fsEmptyCfg config_path = some c ∧
      finalFS (run_yolo fsEmptyCfg) fsEmptyCfg
        (config_path ++ ".yolo-backup") = some c) :=
  ⟨C6_backup_content.1 fsEmptyCfg _ rfl,
   C6_backup_content.2 fsEmptyCfg _ rfl⟩

/-- C7: when the config file is missing or its bytes are not valid JSON,
either script terminates with the uncaught FileNotFound/Parse error, and
since the failure happens before the backup copy and the write, the
filesystem is unchanged. -/
theorem C7_missing_or_invalid (fs : FS)
    (h : fs config_path = none ∨
      ∃ c, fs config_path = some c ∧ parseContent c = none) :
    (run_standard fs = .error .fileNotFound ∨
      run_standard fs = .error .parseError) ∧
    (run_yolo fs = .error .fileNotFound ∨
      run_yolo fs = .error .parseError) ∧
    finalFS (run_standard fs) fs = fs ∧
    finalFS (run_yolo fs) fs = fs := by
  rcases h with hn | ⟨c, hc, hp⟩
  · have e1 : run_standard fs = .error .fileNotFound := by
      simp only [run_standard, hn]
    have e2 : run_yolo fs = .error .fileNotFound := by
      simp only [run_yolo, hn]
    exact ⟨Or.inl e1, Or.inl e2, by rw [e1]; rfl, by rw [e2]; rfl⟩
  · have e1 : run_standard fs = .error .parseError := by
      simp only [run_standard, hc, hp]
    have e2 : run_yolo fs = .error .parseError := by
      simp only [run_yolo, hc, hp]
    exact ⟨Or.inr e1, Or.inr e2, by rw [e1]; rfl, by rw [e2]; rfl⟩

/-- C7 (witness): the two error shapes at concrete filesystems — no file
at all, and a file whose bytes are not valid JSON. -/
theorem C7_witness :
    ((run_standard fsMissing = .error .fileNotFound ∨
       run_standard fsMissing = .error .parseError) ∧
     (run_yolo fsMissing = .error .fileNotFound ∨
       run_yolo fsMissing = .error .parseError) ∧
     finalFS (run_standard fsMissing) fsMissing = fsMissing ∧
     finalFS (run_yolo fsMissing) fsMissing = fsMissing) ∧
    ((run_standard fsRaw = .error .fileNotFound ∨
       run_standard fsRaw = .error .parseError) ∧
     (run_yolo fsRaw = .error .fileNotFound ∨
       run_yolo fsRaw = .error .parseError) ∧
     finalFS (run_standard fsRaw) fsRaw = fsRaw ∧
     finalFS (run_yolo fsRaw) fsRaw = fsRaw) :=
  ⟨C7_missing_or_invalid fsMissing (Or.inl rfl),
   C7_missing_or_invalid fsRaw (Or.inr ⟨.raw "not json", rfl, rfl⟩)⟩

/-- C8: on a valid JSON object without a top-level `projects` key, either
script terminates with the uncaught KeyError raised at
`config["projects"]`, before the backup copy and the write, so the
filesystem — the main file included — is unchanged. -/
theorem C8_missing_projects_key (fs : FS) (config : JObj)
    (hc : fs config_path = some (.json config))
    (hp : lookup config "projects" = none) :
    run_standard fs = .error (.patch .keyError) ∧
    run_yolo fs = .error (.patch .keyError) ∧
    finalFS (run_standard fs) fs = fs ∧
    finalFS (run_yolo fs) fs = fs := by
  have ht1 : transform_standard config = .error .keyError := by
    simp only [transform_standard, hp]
  have ht2 : transform_yolo config = .error .keyError := by
    simp only [transform_yolo, hp]
  have e1 : run_standard fs = .error (.patch .keyError) := by
    simp only [run_standard, hc, parseContent, ht1]
  have e2 : run_yolo fs = .error (.patch .keyError) := by
    simp only [run_yolo, hc, parseContent, ht2]
  exact ⟨e1, e2, by rw [e1]; rfl, by rw [e2]; rfl⟩

/-- C8 (witness): a config file holding `{"other": null}`. -/
theorem C8_witness :
    fsNoProjects config_path = some (.json [("other", .null)]) ∧
    lookup [("other", JValue.null)] "projects" = none ∧
    (run_standard fsNoProjects = .error (.patch .keyError) ∧
     run_yolo fsNoProjects = .error (.patch .keyError) ∧
     finalFS (run_standard fsNoProjects) fsNoProjects = fsNoProjects ∧
     finalFS (run_yolo fsNoProjects) fsNoProjects = fsNoProjects) :=
  ⟨rfl, rfl, C8_missing_projects_key fsNoProjects [("other", .null)] rfl rfl⟩
